import Mathlib

/-!
Verification development for the gh-notify sync-and-cache engine.

The Go sources are shallowly embedded as Lean definitions:

* Go strings are lists of characters (`GoStr`); `strings.ToLower` is
  `List.map Char.toLower`, `strings.Contains` is a substring test on
  character lists.
* `time.Time` values are integer timestamps (seconds); `a.After(b)` is
  `b < a`, `now.Sub(t) <= d` is `now - t ≤ d`.  Durations in the retry
  layer are in milliseconds to express the 2s/4s/8s backoff and 30s
  deadline exactly.
* Go `error` values are wrapped messages (`GoError`); `nil`-vs-non-`nil`
  results are `Option`/`Except`.
* A Go slice-bounds panic is modelled by `Option`: `none` is a runtime
  fault.
* Maps keyed by ID used only for membership tests are modelled by list
  membership over the same IDs.

Every definition follows the corresponding function in
`internal/cache/cache.go`, `internal/github/interfaces.go`,
`internal/github/stars.go` and the error-classification helper of the
`github` package.
-/

namespace GhNotify

/-- Go strings, modelled as lists of characters so that all string
operations compute in the kernel. -/
abbrev GoStr := List Char

/-- Go `error` values: the carried message (as produced by
`err.Error()`). -/
structure GoError where
  msg : GoStr
deriving DecidableEq, Repr

/-- Error wrapping in the style of `fmt.Errorf("...: %w", err)`:
a message followed by the wrapped error's message. -/
def wrapErr (m : GoStr) (e : GoError) : GoError :=
  ⟨m ++ ": ".toList ++ e.msg⟩

/-! ## Cache data model (`internal/cache/cache.go`) -/

/-- CacheEntry from `cache.go`.  The Go field `Type` is `typ` here
(`type` is reserved in Lean). -/
structure CacheEntry where
  id : GoStr
  repository : GoStr
  title : GoStr
  reason : GoStr
  typ : GoStr
  url : GoStr
  webURL : GoStr
  timestamp : Int
  updatedAt : Int
deriving DecidableEq, Repr

/-- StarEvent from `cache.go`. -/
structure StarEvent where
  id : GoStr
  repository : GoStr
  starredBy : GoStr
  starredAt : Int
  notified : Bool
deriving DecidableEq, Repr

/-- Cache root document from `cache.go`. -/
structure Cache where
  version : GoStr
  lastSync : Int
  notifications : List CacheEntry
  stars : List StarEvent
  lastEventSync : Int
  maxEntries : Int
deriving DecidableEq, Repr

/-- Constant `DefaultMaxEntries = 500` from `cache.go`. -/
def DefaultMaxEntries : Int := 500

/-- Constant `MaxAge = 30 * 24 * time.Hour` from `cache.go`, in seconds. -/
def MaxAge : Int := 30 * 24 * 3600

/-- Star retention window `7 * 24 * time.Hour` used inline in `cleanup`,
in seconds. -/
def StarMaxAge : Int := 7 * 24 * 3600

/-- Constant `CacheVersion = "1.0"` from `cache.go`. -/
def CacheVersion : GoStr := "1.0".toList

/-- Constructor `New` from `cache.go`: empty lists, zero times, default
cap. -/
def Cache.new : Cache :=
  { version := CacheVersion
    lastSync := 0
    notifications := []
    stars := []
    lastEventSync := 0
    maxEntries := DefaultMaxEntries }

/-- Method `AddNotifications` from `cache.go`.  The Go loop builds a set
of stored IDs, collects the fetched entries whose ID is not in that set,
and replaces the stored list with the fetched list wholesale; `LastSync`
is set to the current time, passed here as `now`. -/
def Cache.addNotifications (c : Cache) (now : Int) (notifications : List CacheEntry) :
    Cache × List CacheEntry :=
  let existing := c.notifications.map (fun entry => entry.id)
  let newNotifications := notifications.filter (fun n => decide (n.id ∉ existing))
  ({ c with lastSync := now, notifications := notifications }, newNotifications)

/-- Loop body of `AddStarEvents` from `cache.go`: the membership set
`existing` is computed once before the loop and never extended, while
both the stored list and the returned "new" list are appended to. -/
def addStarStep (existing : List GoStr) (acc : List StarEvent × List StarEvent)
    (star : StarEvent) : List StarEvent × List StarEvent :=
  if star.id ∈ existing then acc
  else (acc.1 ++ [star], acc.2 ++ [star])

/-- Method `AddStarEvents` from `cache.go`: appends each fetched event
whose ID is not already stored, returning the appended subset. -/
def Cache.addStarEvents (c : Cache) (starEvents : List StarEvent) :
    Cache × List StarEvent :=
  let existing := c.stars.map (fun star => star.id)
  let r := starEvents.foldl (addStarStep existing) (c.stars, [])
  ({ c with stars := r.1 }, r.2)

/-- Go slice truncation `xs[:k]` guarded by `len(xs) > k`, as it appears
twice in `cleanup`.  A negative `k` that passes the guard makes the Go
slice expression panic at runtime; the panic is `none`. -/
def goTruncate {α : Type} (xs : List α) (k : Int) : Option (List α) :=
  if (xs.length : Int) > k then
    if 0 ≤ k then some (xs.take k.toNat) else none
  else some xs

/-- Comparison passed to `sort.Slice` for notifications in `cleanup`:
newest first by `UpdatedAt`.  `sort.Slice` is an unstable comparison
sort; it is modelled by a concrete comparison sort on the corresponding
non-strict order, which agrees with it on lists without ties. -/
def sortEntriesDesc (entries : List CacheEntry) : List CacheEntry :=
  entries.insertionSort (fun a b => b.updatedAt ≤ a.updatedAt)

/-- Comparison passed to `sort.Slice` for star events: newest first by
`StarredAt`.  The same comparison appears at two call sites, in
`cleanup` (`cache.go`) and in the final sort of `FetchRecentStars`
(`stars.go`). -/
def sortStarsDesc (stars : List StarEvent) : List StarEvent :=
  stars.insertionSort (fun a b => b.starredAt ≤ a.starredAt)

/-- Method `cleanup` from `cache.go`, run inside `Save`: age-filter,
sort newest-first and cap both lists.  `none` is the slice-bounds panic
of the truncation step. -/
def Cache.cleanup (c : Cache) (now : Int) : Option Cache := do
  let validEntries := c.notifications.filter (fun entry => decide (now - entry.timestamp ≤ MaxAge))
  let validEntries := sortEntriesDesc validEntries
  let validEntries ← goTruncate validEntries c.maxEntries
  let validStars := c.stars.filter (fun star => decide (now - star.starredAt ≤ StarMaxAge))
  let validStars := sortStarsDesc validStars
  let validStars ← goTruncate validStars c.maxEntries
  some { c with notifications := validEntries, stars := validStars }

/-- Outcome of reading and deserializing the persisted cache file inside
`Load`: the file is absent, present but not valid JSON for the document,
or parsed into a full document.  Directory creation and raw I/O around
the read are outside the model; `parsed` stands for a successful
`json.Unmarshal` of a document carrying every field (as written by
`Save`). -/
inductive ReadOutcome where
  | missing
  | malformed
  | parsed (doc : Cache)

/-- Method `Load` from `cache.go`: an absent file leaves the receiver
unchanged and is not an error; malformed content is a deserialization
error; after a successful parse a zero `MaxEntries` is replaced by the
default. -/
def Cache.load (c : Cache) (r : ReadOutcome) : Except GoError Cache :=
  match r with
  | .missing => .ok c
  | .malformed => .error ⟨"failed to unmarshal cache".toList⟩
  | .parsed doc =>
      .ok { doc with maxEntries := if doc.maxEntries = 0 then DefaultMaxEntries else doc.maxEntries }

/-! ## Error classification (`github` package) -/

/-- Lowercasing of `err.Error()` as done by `strings.ToLower` (the
messages involved are ASCII). -/
def goToLower (s : GoStr) : GoStr := s.map Char.toLower

/-- Substring test `strings.Contains(hay, needle)`. -/
def containsSub (hay needle : GoStr) : Bool :=
  hay.tails.any fun t => needle.isPrefixOf t

/-- Indicator list from `isRateLimitError` in
`internal/github/interfaces.go`. -/
def rateLimitIndicators : List GoStr :=
  [ "rate limit".toList
  , "api rate limit exceeded".toList
  , "you have exceeded".toList
  , "abuse detection".toList
  , "secondary rate limit".toList ]

/-- Function `isRateLimitError` from `internal/github/interfaces.go`:
the lowercased message contains one of the five indicators.  The Go
`err == nil` guard is outside the model: a `GoError` is a non-nil
error. -/
def isRateLimitError (e : GoError) : Bool :=
  let errStr := goToLower e.msg
  rateLimitIndicators.any fun ind => containsSub errStr ind

/-- Error-type constant `ErrorTypeRateLimit`. -/
def ErrorTypeRateLimit : GoStr := "rate_limit".toList

/-- Error-type constant `ErrorTypeTimeout`. -/
def ErrorTypeTimeout : GoStr := "timeout".toList

/-- Error-type constant `ErrorTypePermission`. -/
def ErrorTypePermission : GoStr := "permission".toList

/-- Error-type constant `ErrorTypeNotFound`. -/
def ErrorTypeNotFound : GoStr := "not_found".toList

/-- Error-type constant `ErrorTypeNetwork`. -/
def ErrorTypeNetwork : GoStr := "network".toList

/-- Error-type constant `ErrorTypeUnknown`. -/
def ErrorTypeUnknown : GoStr := "unknown".toList

/-- Function `ClassifyGitHubError` from the `github` package: the
ordered substring checks over the lowercased message.  The Go
`err == nil` case (`unknown`) is outside the model. -/
def ClassifyGitHubError (e : GoError) : GoStr :=
  let errStr := goToLower e.msg
  if containsSub errStr "rate limit".toList || containsSub errStr "abuse detection".toList then
    ErrorTypeRateLimit
  else if containsSub errStr "timeout".toList || containsSub errStr "deadline exceeded".toList then
    ErrorTypeTimeout
  else if containsSub errStr "forbidden".toList || containsSub errStr "unauthorized".toList
      || containsSub errStr "permission denied".toList || containsSub errStr "403".toList then
    ErrorTypePermission
  else if containsSub errStr "not found".toList || containsSub errStr "404".toList
      || containsSub errStr "could not resolve".toList then
    ErrorTypeNotFound
  else if containsSub errStr "connection refused".toList || containsSub errStr "no such host".toList
      || containsSub errStr "network".toList then
    ErrorTypeNetwork
  else
    ErrorTypeUnknown

/-! ## Resilient call wrapper (`apiGraphQLClient.Do`,
`internal/github/interfaces.go`)

The retry loop is embedded with explicit wall-clock accounting in
milliseconds.  `elapsed` is the time since the first attempt; the
context created by `context.WithTimeout` is done exactly when
`elapsed ≥ 30000`.  Each attempt outcome carries the duration of the
underlying `client.Do` call.  In the backoff `select`, the context
fires first exactly when the deadline lands strictly inside the backoff
window (at a dead-heat Go picks a ready case at random; the model lets
the timer win, which no proved statement depends on). -/

/-- Constant `maxRetries = 3`. -/
def maxRetries : Nat := 3

/-- Constant `initialBackoff = 2 * time.Second`, in milliseconds. -/
def initialBackoffMs : Nat := 2000

/-- Constant `queryTimeout = 30 * time.Second`, in milliseconds. -/
def queryTimeoutMs : Nat := 30000

/-- Outcome of one underlying `client.Do` call: success or a failure
with a given error, either taking `dur` milliseconds. -/
inductive AttemptOutcome where
  | ok (dur : Nat)
  | fail (e : GoError) (dur : Nat)

/-- Result of `apiGraphQLClient.Do`, paired with which `return`
statement produced it: plain success, the untouched non-rate-limit
error, the loop-top timeout error, the mid-backoff timeout error, or
the final error wrapping the last rate-limit failure with the retry
count. -/
inductive DoResult where
  | ok
  | rawErr (e : GoError)
  | queryTimeout
  | waitTimeout
  | retriesExhausted (retries : Nat) (lastErr : GoError)
deriving DecidableEq, Repr

/-- Body of the retry loop of `apiGraphQLClient.Do`, by remaining
iteration count (`fuel = maxRetries + 1 - attemptIdx`).  Returns the
result together with the elapsed time at the moment of return.  The Go
`lastErr` starts as `nil` (`none`); the fuel-0 exit wraps it with the
retry count (from the entry point it is always set by then). -/
def doFrom (attempts : Nat → AttemptOutcome) :
    Nat → Nat → Nat → Nat → Option GoError → DoResult × Nat
  | 0, _, elapsed, _, lastErr =>
      (.retriesExhausted maxRetries (lastErr.getD ⟨[]⟩), elapsed)
  | fuel + 1, attemptIdx, elapsed, backoff, _ =>
      if queryTimeoutMs ≤ elapsed then (.queryTimeout, elapsed)
      else
        match attempts attemptIdx with
        | .ok _ => (.ok, elapsed)
        | .fail e dur =>
            if isRateLimitError e = false then (.rawErr e, elapsed + dur)
            else if attemptIdx < maxRetries then
              if queryTimeoutMs < elapsed + dur + backoff then (.waitTimeout, elapsed + dur)
              else doFrom attempts fuel (attemptIdx + 1) (elapsed + dur + backoff) (backoff * 2) (some e)
            else doFrom attempts fuel (attemptIdx + 1) (elapsed + dur) backoff (some e)

/-- Method `apiGraphQLClient.Do`: run the retry loop from attempt 0 with
fresh elapsed time, the initial backoff and no last error. -/
def DoGo (attempts : Nat → AttemptOutcome) : DoResult × Nat :=
  doFrom attempts (maxRetries + 1) 0 0 initialBackoffMs none

/-! ## Star fetching (`internal/github/stars.go`)

A repository's remote stargazer history is a function from page index
to the page the GraphQL call for that index returns (or the error it
fails with).  The `endCursor` field only threads the cursor to the next
request, which the page-indexed function expresses directly; the query
text is opaque to the control flow and omitted. -/

/-- Edge of `StarsResponse`: `starredAt`, `cursor` and the stargazer
login. -/
structure StarEdge where
  starredAt : Int
  cursor : GoStr
  login : GoStr
deriving DecidableEq, Repr

/-- Page of `StarsResponse`: the edge list and `pageInfo.hasNextPage`. -/
structure StarsPage where
  edges : List StarEdge
  hasNextPage : Bool
deriving DecidableEq, Repr

/-- Constant `maxPages = 10` from `stars.go`. -/
def maxPages : Nat := 10

/-- Conversion of one edge into a `cache.StarEvent` as built in
`fetchStarsForRepo`: the cursor is the ID and `Notified` is left at its
zero value. -/
def mkStarEvent (repoName : GoStr) (e : StarEdge) : StarEvent :=
  { id := e.cursor
    repository := repoName
    starredBy := e.login
    starredAt := e.starredAt
    notified := false }

/-- Inner edge loop of `fetchStarsForRepo`: append events strictly newer
than `since`; at the first older-or-equal edge set `foundOldStar` and
break (later edges of the page are not examined). -/
def processEdges (repoName : GoStr) (since : Int) : List StarEdge → List StarEvent × Bool
  | [] => ([], false)
  | e :: rest =>
      if since < e.starredAt then
        let r := processEdges repoName since rest
        (mkStarEvent repoName e :: r.1, r.2)
      else ([], true)

/-- Page loop of `fetchStarsForRepo`, by remaining page budget
(`fuel = maxPages - pageIdx`).  A failing call returns the events
accumulated so far together with the wrapped error; otherwise the page
is processed and pagination stops on `foundOldStar`, on
`hasNextPage = false`, or when the budget is exhausted. -/
def fetchPagesFrom (pages : Nat → Except GoError StarsPage) (repoName : GoStr) (since : Int) :
    Nat → Nat → List StarEvent × Option GoError
  | 0, _ => ([], none)
  | fuel + 1, pageIdx =>
      match pages pageIdx with
      | .error e =>
          ([], some (wrapErr ("failed to fetch stars for ".toList ++ repoName) e))
      | .ok page =>
          let r := processEdges repoName since page.edges
          if r.2 || !page.hasNextPage then (r.1, none)
          else
            let rest := fetchPagesFrom pages repoName since fuel (pageIdx + 1)
            (r.1 ++ rest.1, rest.2)

/-- Method `fetchStarsForRepo` from `stars.go`: up to `maxPages` pages
starting at page 0. -/
def fetchStarsForRepo (pages : Nat → Except GoError StarsPage) (repoName : GoStr) (since : Int) :
    List StarEvent × Option GoError :=
  fetchPagesFrom pages repoName since maxPages 0

/-- Remote surface a `Client` sees during `FetchRecentStars`: the
repository-list call (`fetchUserRepositories`, already reduced to the
extracted `nameWithOwner` list or its wrapped error) and, per
repository, the page sequence its stargazer queries return. -/
structure ClientModel where
  reposResult : Except GoError (List GoStr)
  pages : GoStr → Nat → Except GoError StarsPage

/-- Method `fetchStarsWithWorkerPool` from `stars.go`.  The bounded pool
appends each repository's result under a mutex in a nondeterministic
interleaving; the model serializes the pool in queue order, which the
caller's final sort makes immaterial.  A repository whose fetch reports
an error is logged and skipped, contributing nothing. -/
def fetchStarsWithWorkerPool (cm : ClientModel) (repos : List GoStr) (since : Int) :
    List StarEvent :=
  repos.foldl
    (fun acc repo =>
      let r := fetchStarsForRepo (cm.pages repo) repo since
      match r.2 with
      | some _ => acc
      | none => acc ++ r.1)
    []

/-- Method `FetchRecentStars` from `stars.go`: fetch the repository
list (a failure is returned as a hard error), fan out over the worker
pool, and sort the accumulated events newest-first. -/
def FetchRecentStars (cm : ClientModel) (since : Int) : Except GoError (List StarEvent) :=
  match cm.reposResult with
  | .error e => .error (wrapErr "failed to fetch repositories".toList e)
  | .ok repos => .ok (sortStarsDesc (fetchStarsWithWorkerPool cm repos since))

/-! ## Slice copying (`GetNotifications` / `GetStars`)

Go slice aliasing is made explicit with a small heap: backing arrays
are numbered, live references are those below `nextRef`, and
`make` + `copy` allocates a fresh array holding the same elements.  The
cache record itself holds references to its two arrays and is not
modified by the getters. -/

/-- Heap of slice backing arrays. -/
structure Mem where
  entryArrays : Nat → List CacheEntry
  starArrays : Nat → List StarEvent
  nextRef : Nat

/-- Cache record with its lists as heap references. -/
structure RefCache where
  notificationsRef : Nat
  starsRef : Nat

/-- Store through a `CacheEntry` slice reference (a mutation the caller
of `GetNotifications` may perform on the returned slice). -/
def Mem.writeEntries (m : Mem) (r : Nat) (v : List CacheEntry) : Mem :=
  { m with entryArrays := fun i => if i = r then v else m.entryArrays i }

/-- Store through a `StarEvent` slice reference. -/
def Mem.writeStars (m : Mem) (r : Nat) (v : List StarEvent) : Mem :=
  { m with starArrays := fun i => if i = r then v else m.starArrays i }

/-- Method `GetNotifications` from `cache.go`:
`make([]CacheEntry, len)` allocates a fresh backing array and `copy`
fills it with the stored elements; the fresh reference is returned. -/
def getNotificationsGo (m : Mem) (c : RefCache) : Mem × Nat :=
  ({ m with
      entryArrays := fun i =>
        if i = m.nextRef then m.entryArrays c.notificationsRef else m.entryArrays i
      nextRef := m.nextRef + 1 },
    m.nextRef)

/-- Method `GetStars` from `cache.go`, same shape as
`getNotificationsGo`. -/
def getStarsGo (m : Mem) (c : RefCache) : Mem × Nat :=
  ({ m with
      starArrays := fun i =>
        if i = m.nextRef then m.starArrays c.starsRef else m.starArrays i
      nextRef := m.nextRef + 1 },
    m.nextRef)

/-! ## Shared helper lemmas -/

/-- Unfolding of the `AddStarEvents` loop: starting from accumulators
`(s, n)`, the loop appends to both exactly the events whose ID is
outside the pre-computed membership set. -/
theorem addStarStep_foldl (existing : List GoStr) (evs : List StarEvent)
    (s n : List StarEvent) :
    evs.foldl (addStarStep existing) (s, n)
      = (s ++ evs.filter (fun e => decide (e.id ∉ existing)),
         n ++ evs.filter (fun e => decide (e.id ∉ existing))) := by
  induction evs generalizing s n with
  | nil => simp
  | cons e rest ih =>
      by_cases h : e.id ∈ existing
      · simpa [addStarStep, h] using ih s n
      · simp [addStarStep, h, ih]

/-- Closed form of `AddStarEvents`: stored list extended by, and return
value equal to, the fetched events with unseen IDs. -/
theorem addStarEvents_eq (c : Cache) (evs : List StarEvent) :
    c.addStarEvents evs
      = ({ c with stars := c.stars
            ++ evs.filter (fun e => decide (e.id ∉ c.stars.map (fun s => s.id))) },
         evs.filter (fun e => decide (e.id ∉ c.stars.map (fun s => s.id)))) := by
  simp [Cache.addStarEvents, addStarStep_foldl]

/-- Membership in the IDs of an ID-filtered event list. -/
theorem mem_ids_filter (l : List StarEvent) (m : List GoStr) (i : GoStr) :
    i ∈ (l.filter (fun e => decide (e.id ∉ m))).map (fun e => e.id)
      ↔ i ∈ l.map (fun e => e.id) ∧ i ∉ m := by
  simp only [List.mem_map, List.mem_filter, decide_eq_true_eq]
  constructor
  · rintro ⟨a, ⟨ha, hm⟩, rfl⟩
    exact ⟨⟨a, ha, rfl⟩, hm⟩
  · rintro ⟨⟨a, ha, rfl⟩, hm⟩
    exact ⟨a, ⟨ha, hm⟩, rfl⟩

/-- IDs stored after one `AddStarEvents` call: union of the old IDs and
the batch IDs. -/
theorem addStarEvents_ids_mem (c : Cache) (evs : List StarEvent) (i : GoStr) :
    i ∈ ((c.addStarEvents evs).1.stars).map (fun s => s.id)
      ↔ i ∈ c.stars.map (fun s => s.id) ∨ i ∈ evs.map (fun s => s.id) := by
  rw [addStarEvents_eq]
  simp only [List.map_append, List.mem_append, mem_ids_filter]
  by_cases h : i ∈ c.stars.map (fun s => s.id) <;> tauto

/-- Nodup of stored IDs is preserved by `AddStarEvents` when the batch
itself carries no duplicate IDs. -/
theorem addStarEvents_ids_nodup (c : Cache) (evs : List StarEvent)
    (hc : (c.stars.map (fun s => s.id)).Nodup)
    (he : (evs.map (fun s => s.id)).Nodup) :
    (((c.addStarEvents evs).1.stars).map (fun s => s.id)).Nodup := by
  rw [addStarEvents_eq]
  simp only [List.map_append]
  rw [List.nodup_append]
  refine ⟨hc, ((List.filter_sublist evs).map (fun s => s.id)).nodup he, ?_⟩
  intro i hi hif
  exact ((mem_ids_filter _ _ _).1 hif).2 hi

/-- Merging a batch whose IDs are all already stored changes nothing
and returns the empty list. -/
theorem addStarEvents_subset_noop (c : Cache) (evs : List StarEvent)
    (h : ∀ e ∈ evs, e.id ∈ c.stars.map (fun s => s.id)) :
    c.addStarEvents evs = (c, []) := by
  have hf : evs.filter (fun e => decide (e.id ∉ c.stars.map (fun s => s.id))) = [] := by
    rw [List.filter_eq_nil_iff]
    intro a ha
    simpa using h a ha
  rw [addStarEvents_eq, hf]
  simp

/-! ## Claim theorems for the cache merge operations -/

/-- C1: `AddNotifications(F)` replaces the stored notification list with
exactly `F`, sets `LastSync` to the call time, leaves every other cache
field unchanged, and returns exactly the elements of `F` whose ID was
absent from the pre-call stored list. -/
theorem addNotifications_replaces_and_returns_new (c : Cache) (now : Int)
    (f : List CacheEntry) :
    ((c.addNotifications now f).1.notifications = f)
    ∧ ((c.addNotifications now f).1.lastSync = now)
    ∧ ((c.addNotifications now f).1.stars = c.stars)
    ∧ ((c.addNotifications now f).1.maxEntries = c.maxEntries)
    ∧ ((c.addNotifications now f).1.version = c.version)
    ∧ ((c.addNotifications now f).1.lastEventSync = c.lastEventSync)
    ∧ ((c.addNotifications now f).2
        = f.filter (fun n => decide (n.id ∉ c.notifications.map (fun entry => entry.id))))
    ∧ (∀ n, n ∈ (c.addNotifications now f).2
        ↔ n ∈ f ∧ ∀ e ∈ c.notifications, e.id ≠ n.id) := by
  refine ⟨rfl, rfl, rfl, rfl, rfl, rfl, rfl, ?_⟩
  intro n
  simp only [Cache.addNotifications, List.mem_filter, List.mem_map, decide_eq_true_eq]
  constructor
  · rintro ⟨hf, hid⟩
    exact ⟨hf, fun e he heq => hid ⟨e, he, heq⟩⟩
  · rintro ⟨hf, hid⟩
    exact ⟨hf, fun hex => by
      obtain ⟨e, he, heq⟩ := hex
      exact hid e he heq⟩

/-- C1 witness: the replacement theorem applied to a concrete fetch. -/
theorem addNotifications_replaces_and_returns_new_witness :
    ((Cache.new.addNotifications 42
      [{ id := "B".toList, repository := [], title := [], reason := [], typ := [],
         url := [], webURL := [], timestamp := 0, updatedAt := 0 }]).1.notifications
      = [{ id := "B".toList, repository := [], title := [], reason := [], typ := [],
           url := [], webURL := [], timestamp := 0, updatedAt := 0 }]) :=
  (addNotifications_replaces_and_returns_new Cache.new 42
    [{ id := "B".toList, repository := [], title := [], reason := [], typ := [],
       url := [], webURL := [], timestamp := 0, updatedAt := 0 }]).1

/-- C2 counterexample: a single fetched batch containing two events with
the same unseen ID is appended twice, so ID uniqueness within the stored
list is not preserved and the stored list is not the ID-deduplicated
union the claim describes. -/
theorem addStarEvents_dup_batch_counterexample :
    ¬ (((Cache.new.addStarEvents
        [ { id := "a".toList, repository := "r1".toList, starredBy := "u1".toList,
            starredAt := 0, notified := false }
        , { id := "a".toList, repository := "r2".toList, starredBy := "u2".toList,
            starredAt := 1, notified := false } ]).1.stars.map (fun s => s.id)).Nodup) := by
  decide

/-- C2 (amended): when the stored list and each fetched batch are
individually free of duplicate IDs, merging `F1` then `F2` accumulates
exactly the union of the prior list, `F1` and `F2` deduplicated by ID
(ID uniqueness is preserved, the stored IDs are the union of the three
ID sets, every stored event comes from the prior list or a batch), and
re-merging the already-stored batch `F1` returns an empty new set and
leaves the stored list unchanged.  On the unamended claim, a batch with
an internal duplicate ID breaks ID uniqueness (see the
counterexample). -/
theorem addStarEvents_accumulate_dedup (c : Cache) (f1 f2 : List StarEvent)
    (hc : (c.stars.map (fun s => s.id)).Nodup)
    (h1 : (f1.map (fun s => s.id)).Nodup)
    (h2 : (f2.map (fun s => s.id)).Nodup) :
    ((((c.addStarEvents f1).1.addStarEvents f2).1.stars.map (fun s => s.id)).Nodup)
    ∧ (∀ i, i ∈ ((c.addStarEvents f1).1.addStarEvents f2).1.stars.map (fun s => s.id)
        ↔ i ∈ c.stars.map (fun s => s.id) ∨ i ∈ f1.map (fun s => s.id)
          ∨ i ∈ f2.map (fun s => s.id))
    ∧ (∀ e ∈ ((c.addStarEvents f1).1.addStarEvents f2).1.stars,
        e ∈ c.stars ∨ e ∈ f1 ∨ e ∈ f2)
    ∧ (((c.addStarEvents f1).1.addStarEvents f2).1.addStarEvents f1
        = (((c.addStarEvents f1).1.addStarEvents f2).1, [])) := by
  refine ⟨?_, ?_, ?_, ?_⟩
  · exact addStarEvents_ids_nodup _ f2 (addStarEvents_ids_nodup c f1 hc h1) h2
  · intro i
    rw [addStarEvents_ids_mem, addStarEvents_ids_mem]
    tauto
  · intro e he
    rw [addStarEvents_eq] at he
    simp only [List.mem_append, List.mem_filter] at he
    rcases he with he | he
    · rw [addStarEvents_eq] at he
      simp only [List.mem_append, List.mem_filter] at he
      tauto
    · tauto
  · apply addStarEvents_subset_noop
    intro e he
    rw [addStarEvents_ids_mem, addStarEvents_ids_mem]
    exact Or.inl (Or.inr (List.mem_map.2 ⟨e, he, rfl⟩))

/-- C2 witness: the amended theorem applied to the spec example — stored
IDs {A}, batches {B} then {B, C}. -/
theorem addStarEvents_accumulate_dedup_witness :
    ((((({ Cache.new with
        stars := [{ id := "A".toList, repository := [], starredBy := [],
                    starredAt := 0, notified := false }] } : Cache).addStarEvents
        [{ id := "B".toList, repository := [], starredBy := [],
           starredAt := 1, notified := false }]).1.addStarEvents
        [ { id := "B".toList, repository := [], starredBy := [],
            starredAt := 1, notified := false }
        , { id := "C".toList, repository := [], starredBy := [],
            starredAt := 2, notified := false } ]).1.stars.map
        (fun s => s.id)).Nodup) :=
  (addStarEvents_accumulate_dedup _ _ _ (by decide) (by decide) (by decide)).1

/-! ## Eviction and load lemmas -/

/-- With a non-negative cap, the guarded truncation is an ordinary
`take`. -/
theorem goTruncate_of_nonneg {α : Type} (xs : List α) (k : Int) (hk : 0 ≤ k) :
    goTruncate xs k = some (xs.take k.toNat) := by
  unfold goTruncate
  by_cases h : (xs.length : Int) > k
  · simp [h, hk]
  · have hlen : xs.length ≤ k.toNat := by omega
    simp [h, List.take_of_length_le hlen]

/-- Closed form of `cleanup` under a non-negative cap: filter by age,
sort newest-first, truncate. -/
theorem cleanup_eq (c : Cache) (now : Int) (h : 0 ≤ c.maxEntries) :
    c.cleanup now = some
      { c with
        notifications := (sortEntriesDesc (c.notifications.filter
            (fun entry => decide (now - entry.timestamp ≤ MaxAge)))).take c.maxEntries.toNat
        stars := (sortStarsDesc (c.stars.filter
            (fun star => decide (now - star.starredAt ≤ StarMaxAge)))).take c.maxEntries.toNat } := by
  simp [Cache.cleanup, goTruncate_of_nonneg _ _ h]

/-- Sortedness of the star sort: the output is pairwise newest-first by
`StarredAt`. -/
theorem sortStarsDesc_sorted (l : List StarEvent) :
    List.Sorted (fun a b => b.starredAt ≤ a.starredAt) (sortStarsDesc l) := by
  haveI : IsTotal StarEvent (fun a b => b.starredAt ≤ a.starredAt) :=
    ⟨fun a b => le_total b.starredAt a.starredAt⟩
  haveI : IsTrans StarEvent (fun a b => b.starredAt ≤ a.starredAt) :=
    ⟨fun a b c hab hbc => le_trans hbc hab⟩
  exact List.sorted_insertionSort _ l

/-- Sortedness of the notification sort: pairwise newest-first by
`UpdatedAt`. -/
theorem sortEntriesDesc_sorted (l : List CacheEntry) :
    List.Sorted (fun a b => b.updatedAt ≤ a.updatedAt) (sortEntriesDesc l) := by
  haveI : IsTotal CacheEntry (fun a b => b.updatedAt ≤ a.updatedAt) :=
    ⟨fun a b => le_total b.updatedAt a.updatedAt⟩
  haveI : IsTrans CacheEntry (fun a b => b.updatedAt ≤ a.updatedAt) :=
    ⟨fun a b c hab hbc => le_trans hbc hab⟩
  exact List.sorted_insertionSort _ l

/-- The star sort is a permutation of its input. -/
theorem sortStarsDesc_perm (l : List StarEvent) : (sortStarsDesc l).Perm l :=
  List.perm_insertionSort _ l

/-- The notification sort is a permutation of its input. -/
theorem sortEntriesDesc_perm (l : List CacheEntry) : (sortEntriesDesc l).Perm l :=
  List.perm_insertionSort _ l

/-! ## Claim theorems for eviction and load -/

/-- C5 (amended to non-negative caps, which is all C9's counterexample
forces): under a non-negative `MaxEntries`, the eviction run inside
`Save` keeps, for stars, only previously stored events whose
`StarredAt` is within the 7-day window (so an 8-day-old event is
dropped), keeps all of them when the survivors fit the cap (so a
6-day-old event is retained), leaves the list sorted newest-first by
`StarredAt` and capped at `MaxEntries` keeping the newest — every
in-window event the cap drops is no newer than any kept one, exactly
cap-many survive when the in-window events overflow the cap, and the
result is exactly the newest-first sort of the in-window events
truncated at the cap; and the same holds for notifications with the
30-day window and the `UpdatedAt` ordering. -/
theorem cleanup_eviction_spec (c : Cache) (now : Int) (c2 : Cache)
    (hmax : 0 ≤ c.maxEntries)
    (hrun : c.cleanup now = some c2) :
    (∀ e ∈ c2.stars, e ∈ c.stars ∧ now - e.starredAt ≤ StarMaxAge)
    ∧ (((c.stars.filter (fun s => decide (now - s.starredAt ≤ StarMaxAge))).length : Int)
          ≤ c.maxEntries →
        ∀ e ∈ c.stars, now - e.starredAt ≤ StarMaxAge → e ∈ c2.stars)
    ∧ List.Sorted (fun a b => b.starredAt ≤ a.starredAt) c2.stars
    ∧ ((c2.stars.length : Int) ≤ c.maxEntries)
    ∧ (∀ e ∈ c2.notifications, e ∈ c.notifications ∧ now - e.timestamp ≤ MaxAge)
    ∧ (((c.notifications.filter (fun n => decide (now - n.timestamp ≤ MaxAge))).length : Int)
          ≤ c.maxEntries →
        ∀ e ∈ c.notifications, now - e.timestamp ≤ MaxAge → e ∈ c2.notifications)
    ∧ List.Sorted (fun a b => b.updatedAt ≤ a.updatedAt) c2.notifications
    ∧ ((c2.notifications.length : Int) ≤ c.maxEntries)
    ∧ (∀ e ∈ c.stars, now - e.starredAt ≤ StarMaxAge → e ∉ c2.stars →
        ∀ kept ∈ c2.stars, e.starredAt ≤ kept.starredAt)
    ∧ (c.maxEntries
          ≤ ((c.stars.filter (fun s => decide (now - s.starredAt ≤ StarMaxAge))).length : Int) →
        (c2.stars.length : Int) = c.maxEntries)
    ∧ (c2.stars = (sortStarsDesc (c.stars.filter
          (fun star => decide (now - star.starredAt ≤ StarMaxAge)))).take c.maxEntries.toNat)
    ∧ (∀ e ∈ c.notifications, now - e.timestamp ≤ MaxAge → e ∉ c2.notifications →
        ∀ kept ∈ c2.notifications, e.updatedAt ≤ kept.updatedAt)
    ∧ (c.maxEntries
          ≤ ((c.notifications.filter (fun n => decide (now - n.timestamp ≤ MaxAge))).length : Int) →
        (c2.notifications.length : Int) = c.maxEntries)
    ∧ (c2.notifications = (sortEntriesDesc (c.notifications.filter
          (fun entry => decide (now - entry.timestamp ≤ MaxAge)))).take c.maxEntries.toNat) := by
  rw [cleanup_eq c now hmax] at hrun
  injection hrun with hrun
  subst hrun
  refine ⟨?_, ?_, ?_, ?_, ?_, ?_, ?_, ?_, ?_, ?_, ?_, ?_, ?_, ?_⟩
  · intro e he
    have h1 : e ∈ sortStarsDesc (c.stars.filter
        (fun star => decide (now - star.starredAt ≤ StarMaxAge))) :=
      List.take_subset _ _ he
    have h2 := ((sortStarsDesc_perm _).mem_iff).1 h1
    have h3 := List.mem_filter.1 h2
    exact ⟨h3.1, of_decide_eq_true h3.2⟩
  · intro hlen e he hage
    have hmem : e ∈ c.stars.filter (fun s => decide (now - s.starredAt ≤ StarMaxAge)) :=
      List.mem_filter.2 ⟨he, decide_eq_true hage⟩
    have hlist := ((sortStarsDesc_perm _).mem_iff).2 hmem
    have hl : (sortStarsDesc (c.stars.filter
        (fun s => decide (now - s.starredAt ≤ StarMaxAge)))).length ≤ c.maxEntries.toNat := by
      have := (sortStarsDesc_perm (c.stars.filter
        (fun s => decide (now - s.starredAt ≤ StarMaxAge)))).length_eq
      omega
    rw [List.take_of_length_le hl]
    exact hlist
  · exact (sortStarsDesc_sorted _).sublist (List.take_sublist _ _)
  · have := List.length_take c.maxEntries.toNat (sortStarsDesc (c.stars.filter
      (fun star => decide (now - star.starredAt ≤ StarMaxAge))))
    simp only [this]
    omega
  · intro e he
    have h1 : e ∈ sortEntriesDesc (c.notifications.filter
        (fun entry => decide (now - entry.timestamp ≤ MaxAge))) :=
      List.take_subset _ _ he
    have h2 := ((sortEntriesDesc_perm _).mem_iff).1 h1
    have h3 := List.mem_filter.1 h2
    exact ⟨h3.1, of_decide_eq_true h3.2⟩
  · intro hlen e he hage
    have hmem : e ∈ c.notifications.filter (fun n => decide (now - n.timestamp ≤ MaxAge)) :=
      List.mem_filter.2 ⟨he, decide_eq_true hage⟩
    have hlist := ((sortEntriesDesc_perm _).mem_iff).2 hmem
    have hl : (sortEntriesDesc (c.notifications.filter
        (fun n => decide (now - n.timestamp ≤ MaxAge)))).length ≤ c.maxEntries.toNat := by
      have := (sortEntriesDesc_perm (c.notifications.filter
        (fun n => decide (now - n.timestamp ≤ MaxAge)))).length_eq
      omega
    rw [List.take_of_length_le hl]
    exact hlist
  · exact (sortEntriesDesc_sorted _).sublist (List.take_sublist _ _)
  · have := List.length_take c.maxEntries.toNat (sortEntriesDesc (c.notifications.filter
      (fun entry => decide (now - entry.timestamp ≤ MaxAge))))
    simp only [this]
    omega
  · intro e he hage hnot kept hkept
    have hmem : e ∈ sortStarsDesc (c.stars.filter
        (fun star => decide (now - star.starredAt ≤ StarMaxAge))) :=
      ((sortStarsDesc_perm _).mem_iff).2 (List.mem_filter.2 ⟨he, decide_eq_true hage⟩)
    have hsorted : List.Pairwise (fun a b => b.starredAt ≤ a.starredAt)
        (sortStarsDesc (c.stars.filter
          (fun star => decide (now - star.starredAt ≤ StarMaxAge)))) :=
      sortStarsDesc_sorted _
    rw [← List.take_append_drop c.maxEntries.toNat (sortStarsDesc (c.stars.filter
      (fun star => decide (now - star.starredAt ≤ StarMaxAge))))] at hmem hsorted
    obtain ⟨-, -, hcross⟩ := List.pairwise_append.1 hsorted
    rcases List.mem_append.1 hmem with hm | hm
    · exact absurd hm hnot
    · exact hcross kept hkept e hm
  · intro hov
    have hlen := (sortStarsDesc_perm (c.stars.filter
      (fun star => decide (now - star.starredAt ≤ StarMaxAge)))).length_eq
    have hk : c.maxEntries.toNat ≤ (sortStarsDesc (c.stars.filter
        (fun star => decide (now - star.starredAt ≤ StarMaxAge)))).length := by
      omega
    rw [List.length_take, inf_eq_min, Nat.min_eq_left hk]
    omega
  · rfl
  · intro e he hage hnot kept hkept
    have hmem : e ∈ sortEntriesDesc (c.notifications.filter
        (fun entry => decide (now - entry.timestamp ≤ MaxAge))) :=
      ((sortEntriesDesc_perm _).mem_iff).2 (List.mem_filter.2 ⟨he, decide_eq_true hage⟩)
    have hsorted : List.Pairwise (fun a b => b.updatedAt ≤ a.updatedAt)
        (sortEntriesDesc (c.notifications.filter
          (fun entry => decide (now - entry.timestamp ≤ MaxAge)))) :=
      sortEntriesDesc_sorted _
    rw [← List.take_append_drop c.maxEntries.toNat (sortEntriesDesc (c.notifications.filter
      (fun entry => decide (now - entry.timestamp ≤ MaxAge))))] at hmem hsorted
    obtain ⟨-, -, hcross⟩ := List.pairwise_append.1 hsorted
    rcases List.mem_append.1 hmem with hm | hm
    · exact absurd hm hnot
    · exact hcross kept hkept e hm
  · intro hov
    have hlen := (sortEntriesDesc_perm (c.notifications.filter
      (fun entry => decide (now - entry.timestamp ≤ MaxAge)))).length_eq
    have hk : c.maxEntries.toNat ≤ (sortEntriesDesc (c.notifications.filter
        (fun entry => decide (now - entry.timestamp ≤ MaxAge)))).length := by
      omega
    rw [List.length_take, inf_eq_min, Nat.min_eq_left hk]
    omega
  · rfl

/-- C5 counterexample: the unamended claim quantifies over every
in-memory cache state, but on a state with a negative `MaxEntries`
(producible by `Load`, whose guard only replaces zero) the eviction run
faults on the slice truncation instead of leaving the 6-day-old event
retained. -/
theorem cleanup_negative_cap_counterexample :
    ({ Cache.new with
        maxEntries := -2,
        stars := [{ id := "s".toList, repository := [], starredBy := [],
                    starredAt := 345600, notified := false }] } : Cache).cleanup 864000
      = none := rfl

/-- C5 witness: the amended theorem applied to a cache with
`maxEntries = 3` and six stored events — one 8 days old (dropped by the
age filter) and five in-window with distinct timestamps, of which
exactly the three newest survive the cap, sorted newest-first. -/
theorem cleanup_eviction_spec_witness :
    (List.Sorted (fun a b => b.starredAt ≤ a.starredAt)
      ({ Cache.new with
          maxEntries := 3,
          stars := [{ id := "a".toList, repository := [], starredBy := [], starredAt := 850000, notified := false },
                    { id := "b".toList, repository := [], starredBy := [], starredAt := 800000, notified := false },
                    { id := "c".toList, repository := [], starredBy := [], starredAt := 750000, notified := false }] } : Cache).stars)
    ∧ ((({ Cache.new with
          maxEntries := 3,
          stars := [{ id := "a".toList, repository := [], starredBy := [], starredAt := 850000, notified := false },
                    { id := "b".toList, repository := [], starredBy := [], starredAt := 800000, notified := false },
                    { id := "c".toList, repository := [], starredBy := [], starredAt := 750000, notified := false }] } : Cache).stars.length : Int) ≤ 3)
    ∧ ((({ Cache.new with
          maxEntries := 3,
          stars := [{ id := "a".toList, repository := [], starredBy := [], starredAt := 850000, notified := false },
                    { id := "b".toList, repository := [], starredBy := [], starredAt := 800000, notified := false },
                    { id := "c".toList, repository := [], starredBy := [], starredAt := 750000, notified := false }] } : Cache).stars.length : Int) = 3) := by
  have h := cleanup_eviction_spec
    ({ Cache.new with
        maxEntries := 3,
        stars := [{ id := "d".toList, repository := [], starredBy := [], starredAt := 700000, notified := false },
                  { id := "a".toList, repository := [], starredBy := [], starredAt := 850000, notified := false },
                  { id := "f".toList, repository := [], starredBy := [], starredAt := 172800, notified := false },
                  { id := "c".toList, repository := [], starredBy := [], starredAt := 750000, notified := false },
                  { id := "e".toList, repository := [], starredBy := [], starredAt := 345600, notified := false },
                  { id := "b".toList, repository := [], starredBy := [], starredAt := 800000, notified := false }] } : Cache)
    864000
    ({ Cache.new with
        maxEntries := 3,
        stars := [{ id := "a".toList, repository := [], starredBy := [], starredAt := 850000, notified := false },
                  { id := "b".toList, repository := [], starredBy := [], starredAt := 800000, notified := false },
                  { id := "c".toList, repository := [], starredBy := [], starredAt := 750000, notified := false }] } : Cache)
    (by decide) (by decide)
  exact ⟨h.2.2.1, h.2.2.2.1, h.2.2.2.2.2.2.2.2.2.1 (by decide)⟩

/-- C9 counterexample: a well-formed persisted document with
`max_entries = -1` passes `Load` unchanged (the guard only replaces
zero), and on the resulting state the size-cap truncation index `-1` is
out of bounds — `cleanup` faults even with both lists empty. -/
theorem load_negative_maxEntries_cleanup_faults :
    (Cache.new.load (ReadOutcome.parsed { Cache.new with maxEntries := -1 })
      = Except.ok { Cache.new with maxEntries := -1 })
    ∧ (({ Cache.new with maxEntries := -1 } : Cache).cleanup 0 = none) :=
  ⟨rfl, rfl⟩

/-- C9 (amended): for every cache state produced by `Load` from a
well-formed document whose stored `max_entries` is non-negative, the
eviction step of `Save` is safe — the truncation indices are in bounds
and `cleanup` never faults. -/
theorem load_then_cleanup_safe (c doc r : Cache) (now : Int)
    (hdoc : 0 ≤ doc.maxEntries)
    (hload : c.load (ReadOutcome.parsed doc) = Except.ok r) :
    (r.cleanup now).isSome := by
  simp only [Cache.load, Except.ok.injEq] at hload
  subst hload
  have hr : (0 : Int) ≤ if doc.maxEntries = 0 then DefaultMaxEntries else doc.maxEntries := by
    split_ifs
    · norm_num [DefaultMaxEntries]
    · exact hdoc
  rw [cleanup_eq _ now hr]
  rfl

/-- C9 witness: the amended theorem applied to loading a document with
`max_entries = 7`. -/
theorem load_then_cleanup_safe_witness :
    ((({ Cache.new with maxEntries := 7 } : Cache)).cleanup 0).isSome :=
  load_then_cleanup_safe Cache.new { Cache.new with maxEntries := 7 }
    { Cache.new with maxEntries := 7 } 0 (by decide) rfl

/-- C8: `Load` with no persisted file is not an error and leaves the
(fresh, empty) cache as constructed; malformed content is a
deserialization error; a parsed document with `MaxEntries = 0` gets the
default 500, and any other parsed value is kept. -/
theorem load_spec (c doc : Cache) :
    (c.load ReadOutcome.missing = Except.ok c)
    ∧ (Cache.new.notifications = [] ∧ Cache.new.stars = [])
    ∧ (c.load ReadOutcome.malformed
        = Except.error ⟨"failed to unmarshal cache".toList⟩)
    ∧ (doc.maxEntries = 0 →
        c.load (ReadOutcome.parsed doc)
          = Except.ok { doc with maxEntries := DefaultMaxEntries })
    ∧ (doc.maxEntries ≠ 0 →
        c.load (ReadOutcome.parsed doc) = Except.ok doc)
    ∧ DefaultMaxEntries = 500 := by
  refine ⟨rfl, ⟨rfl, rfl⟩, rfl, ?_, ?_, rfl⟩
  · intro h
    simp [Cache.load, h]
  · intro h
    simp [Cache.load, h]

/-- C8 witness: loading a stored document whose `max_entries` is zero
yields the default cap. -/
theorem load_spec_witness :
    Cache.new.load (ReadOutcome.parsed { Cache.new with maxEntries := 0 })
      = Except.ok { Cache.new with maxEntries := DefaultMaxEntries } :=
  (load_spec Cache.new { Cache.new with maxEntries := 0 }).2.2.2.1 rfl

/-- C10: `GetNotifications` and `GetStars` allocate a fresh backing
array holding a copy of the stored list; the returned reference differs
from the cache's own, and any store through the returned reference
leaves both of the cache's stored lists unchanged. -/
theorem getters_return_fresh_copies (m : Mem) (c : RefCache)
    (hn : c.notificationsRef < m.nextRef) (hs : c.starsRef < m.nextRef) :
    ((getNotificationsGo m c).2 ≠ c.notificationsRef)
    ∧ ((getNotificationsGo m c).1.entryArrays (getNotificationsGo m c).2
        = m.entryArrays c.notificationsRef)
    ∧ (∀ v, (((getNotificationsGo m c).1.writeEntries (getNotificationsGo m c).2 v).entryArrays
          c.notificationsRef = m.entryArrays c.notificationsRef)
        ∧ (((getNotificationsGo m c).1.writeEntries (getNotificationsGo m c).2 v).starArrays
          c.starsRef = m.starArrays c.starsRef))
    ∧ ((getStarsGo m c).2 ≠ c.starsRef)
    ∧ ((getStarsGo m c).1.starArrays (getStarsGo m c).2 = m.starArrays c.starsRef)
    ∧ (∀ v, (((getStarsGo m c).1.writeStars (getStarsGo m c).2 v).starArrays
          c.starsRef = m.starArrays c.starsRef)
        ∧ (((getStarsGo m c).1.writeStars (getStarsGo m c).2 v).entryArrays
          c.notificationsRef = m.entryArrays c.notificationsRef)) := by
  have hn2 : c.notificationsRef ≠ m.nextRef := Nat.ne_of_lt hn
  have hs2 : c.starsRef ≠ m.nextRef := Nat.ne_of_lt hs
  refine ⟨?_, ?_, ?_, ?_, ?_, ?_⟩
  · simpa [getNotificationsGo] using fun h => hn2 h.symm
  · simp [getNotificationsGo]
  · intro v
    constructor
    · simp [getNotificationsGo, Mem.writeEntries, hn2]
    · simp [getNotificationsGo, Mem.writeEntries]
  · simpa [getStarsGo] using fun h => hs2 h.symm
  · simp [getStarsGo]
  · intro v
    constructor
    · simp [getStarsGo, Mem.writeStars, hs2]
    · simp [getStarsGo, Mem.writeStars]

/-- C10 witness: the copy theorem applied to a one-array heap for each
list. -/
theorem getters_return_fresh_copies_witness :
    (getNotificationsGo
        { entryArrays := fun _ => [], starArrays := fun _ => [], nextRef := 2 }
        { notificationsRef := 0, starsRef := 1 }).2 ≠ 0 :=
  (getters_return_fresh_copies
    { entryArrays := fun _ => [], starArrays := fun _ => [], nextRef := 2 }
    { notificationsRef := 0, starsRef := 1 }
    (by decide) (by decide)).1

/-! ## Claim theorems for error classification and retry -/

/-- C7 counterexample: an error whose message matches the indicator
"you have exceeded" but neither "rate limit" nor "abuse detection" is
treated as rate-limit-shaped by the retry layer while the
classification function assigns it `unknown`, so retry is not driven
exactly by the `rate_limit` category. -/
theorem isRateLimit_vs_classify_counterexample :
    isRateLimitError ⟨"you have exceeded a secondary quota".toList⟩ = true
    ∧ ClassifyGitHubError ⟨"you have exceeded a secondary quota".toList⟩
        = ErrorTypeUnknown := by
  decide

/-- C7 (amended): every error classified `rate_limit` is treated as
rate-limit-shaped by the retry layer (so the `rate_limit` category
always drives a retry), but the converse fails — `isRateLimitError`
also accepts messages matching only "you have exceeded", which classify
as `unknown`. -/
theorem rate_limit_retry_refinement (e : GoError) :
    (ClassifyGitHubError e = ErrorTypeRateLimit → isRateLimitError e = true)
    ∧ (isRateLimitError ⟨"you have exceeded a secondary quota".toList⟩ = true
        ∧ ClassifyGitHubError ⟨"you have exceeded a secondary quota".toList⟩
            ≠ ErrorTypeRateLimit) := by
  refine ⟨?_, by decide, by decide⟩
  intro h
  simp only [ClassifyGitHubError] at h
  split_ifs at h with h1 h2 h3 h4 h5
  · simp only [isRateLimitError, List.any_eq_true]
    rw [Bool.or_eq_true] at h1
    rcases h1 with hc | hc
    · exact ⟨"rate limit".toList, by decide, hc⟩
    · exact ⟨"abuse detection".toList, by decide, hc⟩
  · exact absurd h (by decide)
  · exact absurd h (by decide)
  · exact absurd h (by decide)
  · exact absurd h (by decide)
  · exact absurd h (by decide)

/-- C7 witness: the refinement direction applied to a concrete
rate-limit-classified error. -/
theorem rate_limit_retry_refinement_witness :
    isRateLimitError ⟨"API rate limit exceeded".toList⟩ = true :=
  (rate_limit_retry_refinement ⟨"API rate limit exceeded".toList⟩).1 (by decide)

/-- C3: behaviour of the resilient call wrapper.  A first-attempt
success returns immediately; a non-rate-limit failure is returned
untouched with zero retries; a rate-limit failure followed by a
non-rate-limit one returns the latter after one backoff; two rate-limit
failures followed by success return success after the 2s and 4s
backoffs (elapsed 6s); four rate-limit failures exhaust the 3 retries
after backoffs 2s, 4s, 8s (elapsed 14s) and wrap the last error with
the retry count; and a backoff window that would cross the 30s deadline
aborts with the waiting-timeout error. -/
theorem do_retry_policy :
    (∀ (attempts : Nat → AttemptOutcome) (d : Nat),
      attempts 0 = .ok d → DoGo attempts = (.ok, 0))
    ∧ (∀ (attempts : Nat → AttemptOutcome) (e : GoError) (d : Nat),
      attempts 0 = .fail e d → isRateLimitError e = false →
        DoGo attempts = (.rawErr e, d))
    ∧ (∀ (attempts : Nat → AttemptOutcome) (e0 e1 : GoError),
      attempts 0 = .fail e0 0 → isRateLimitError e0 = true →
      attempts 1 = .fail e1 0 → isRateLimitError e1 = false →
        DoGo attempts = (.rawErr e1, initialBackoffMs))
    ∧ (∀ (attempts : Nat → AttemptOutcome) (e0 e1 : GoError),
      attempts 0 = .fail e0 0 → isRateLimitError e0 = true →
      attempts 1 = .fail e1 0 → isRateLimitError e1 = true →
      attempts 2 = .ok 0 →
        DoGo attempts = (.ok, initialBackoffMs + initialBackoffMs * 2))
    ∧ (∀ (attempts : Nat → AttemptOutcome) (e0 e1 e2 e3 : GoError),
      attempts 0 = .fail e0 0 → attempts 1 = .fail e1 0 →
      attempts 2 = .fail e2 0 → attempts 3 = .fail e3 0 →
      isRateLimitError e0 = true → isRateLimitError e1 = true →
      isRateLimitError e2 = true → isRateLimitError e3 = true →
        DoGo attempts = (.retriesExhausted maxRetries e3,
          initialBackoffMs + initialBackoffMs * 2 + initialBackoffMs * 4))
    ∧ (∀ (attempts : Nat → AttemptOutcome) (e : GoError) (d : Nat),
      attempts 0 = .fail e d → isRateLimitError e = true →
      queryTimeoutMs < d + initialBackoffMs →
        DoGo attempts = (.waitTimeout, d)) := by
  refine ⟨?_, ?_, ?_, ?_, ?_, ?_⟩
  · intro attempts d h0
    simp [DoGo, doFrom, maxRetries, initialBackoffMs, queryTimeoutMs, h0]
  · intro attempts e d h0 hrl
    simp [DoGo, doFrom, maxRetries, initialBackoffMs, queryTimeoutMs, h0, hrl]
  · intro attempts e0 e1 h0 hrl0 h1 hrl1
    simp [DoGo, doFrom, maxRetries, initialBackoffMs, queryTimeoutMs, h0, hrl0, h1, hrl1]
  · intro attempts e0 e1 h0 hrl0 h1 hrl1 h2
    simp [DoGo, doFrom, maxRetries, initialBackoffMs, queryTimeoutMs, h0, hrl0, h1, hrl1, h2]
  · intro attempts e0 e1 e2 e3 h0 h1 h2 h3 hrl0 hrl1 hrl2 hrl3
    simp [DoGo, doFrom, maxRetries, initialBackoffMs, queryTimeoutMs,
      h0, h1, h2, h3, hrl0, hrl1, hrl2, hrl3]
  · intro attempts e d h0 hrl ht
    simp only [queryTimeoutMs, initialBackoffMs] at ht
    simp [DoGo, doFrom, maxRetries, initialBackoffMs, queryTimeoutMs, h0, hrl, ht]

/-- C3 witness: the retry-policy theorem applied to a run of four
rate-limit failures and to a first-attempt success. -/
theorem do_retry_policy_witness :
    (DoGo (fun _ => AttemptOutcome.fail ⟨"rate limit".toList⟩ 0)
      = (.retriesExhausted maxRetries ⟨"rate limit".toList⟩,
          initialBackoffMs + initialBackoffMs * 2 + initialBackoffMs * 4))
    ∧ (DoGo (fun _ => AttemptOutcome.ok 5) = (.ok, 0)) :=
  ⟨do_retry_policy.2.2.2.2.1 _ _ _ _ _ rfl rfl rfl rfl
      (by decide) (by decide) (by decide) (by decide),
    do_retry_policy.1 _ 5 rfl⟩

/-! ## Pagination lemmas -/

/-- Every event the edge loop keeps is strictly newer than the
cutoff. -/
theorem processEdges_newer (repoName : GoStr) (since : Int) (l : List StarEdge) :
    ∀ ev ∈ (processEdges repoName since l).1, since < ev.starredAt := by
  induction l with
  | nil => simp [processEdges]
  | cons e rest ih =>
      by_cases h : since < e.starredAt
      · simp only [processEdges, if_pos h]
        intro ev hev
        rcases List.mem_cons.1 hev with rfl | hm
        · simpa [mkStarEvent] using h
        · exact ih ev hm
      · simp [processEdges, h]

/-- The edge loop reports `foundOldStar` whenever the page contains an
edge at or before the cutoff. -/
theorem processEdges_found_old (repoName : GoStr) (since : Int) (l : List StarEdge)
    (h : ∃ e ∈ l, e.starredAt ≤ since) :
    (processEdges repoName since l).2 = true := by
  induction l with
  | nil => simp at h
  | cons e rest ih =>
      by_cases hn : since < e.starredAt
      · simp only [processEdges, if_pos hn]
        apply ih
        rcases h with ⟨x, hx, hxle⟩
        rcases List.mem_cons.1 hx with rfl | hm
        · omega
        · exact ⟨x, hm, hxle⟩
      · simp [processEdges, hn]

/-- Unfolding of the page loop at a failing call. -/
theorem fetchPagesFrom_error (pages : Nat → Except GoError StarsPage) (repoName : GoStr)
    (since : Int) (n idx : Nat) (e : GoError) (h : pages idx = .error e) :
    fetchPagesFrom pages repoName since (n + 1) idx
      = ([], some (wrapErr ("failed to fetch stars for ".toList ++ repoName) e)) := by
  simp [fetchPagesFrom, h]

/-- Unfolding of the page loop at a page that stops pagination (an old
edge was found or there is no next page). -/
theorem fetchPagesFrom_ok_stop (pages : Nat → Except GoError StarsPage) (repoName : GoStr)
    (since : Int) (n idx : Nat) (page : StarsPage) (h : pages idx = .ok page)
    (hc : ((processEdges repoName since page.edges).2 || !page.hasNextPage) = true) :
    fetchPagesFrom pages repoName since (n + 1) idx
      = ((processEdges repoName since page.edges).1, none) := by
  simp [fetchPagesFrom, h, hc]

/-- Unfolding of the page loop at a page that continues pagination. -/
theorem fetchPagesFrom_ok_cont (pages : Nat → Except GoError StarsPage) (repoName : GoStr)
    (since : Int) (n idx : Nat) (page : StarsPage) (h : pages idx = .ok page)
    (hc : ((processEdges repoName since page.edges).2 || !page.hasNextPage) = false) :
    fetchPagesFrom pages repoName since (n + 1) idx
      = ((processEdges repoName since page.edges).1
            ++ (fetchPagesFrom pages repoName since n (idx + 1)).1,
         (fetchPagesFrom pages repoName since n (idx + 1)).2) := by
  simp [fetchPagesFrom, h, hc]

/-- Every event the page loop returns is strictly newer than the
cutoff. -/
theorem fetchPagesFrom_newer (pages : Nat → Except GoError StarsPage) (repoName : GoStr)
    (since : Int) :
    ∀ (fuel idx : Nat), ∀ ev ∈ (fetchPagesFrom pages repoName since fuel idx).1,
      since < ev.starredAt := by
  intro fuel
  induction fuel with
  | zero =>
      intro idx ev hev
      simp [fetchPagesFrom] at hev
  | succ n ih =>
      intro idx ev hev
      cases hp : pages idx with
      | error e =>
          rw [fetchPagesFrom_error pages repoName since n idx e hp] at hev
          simp at hev
      | ok page =>
          cases hc : ((processEdges repoName since page.edges).2 || !page.hasNextPage) with
          | true =>
              rw [fetchPagesFrom_ok_stop pages repoName since n idx page hp hc] at hev
              exact processEdges_newer repoName since page.edges ev hev
          | false =>
              rw [fetchPagesFrom_ok_cont pages repoName since n idx page hp hc] at hev
              rcases List.mem_append.1 hev with hm | hm
              · exact processEdges_newer repoName since page.edges ev hm
              · exact ih (idx + 1) ev hm

/-- The page loop only ever consults the pages inside its budget. -/
theorem fetchPagesFrom_congr (pages pages2 : Nat → Except GoError StarsPage)
    (repoName : GoStr) (since : Int) :
    ∀ (fuel idx : Nat), (∀ j, idx ≤ j → j < idx + fuel → pages j = pages2 j) →
      fetchPagesFrom pages repoName since fuel idx
        = fetchPagesFrom pages2 repoName since fuel idx := by
  intro fuel
  induction fuel with
  | zero =>
      intro idx _
      rfl
  | succ n ih =>
      intro idx h
      have h0 : pages2 idx = pages idx := (h idx le_rfl (by omega)).symm
      have hrec := ih (idx + 1) (fun j hj1 hj2 => h j (by omega) (by omega))
      cases hp : pages idx with
      | error e =>
          rw [fetchPagesFrom_error pages repoName since n idx e hp,
              fetchPagesFrom_error pages2 repoName since n idx e (h0.trans hp)]
      | ok page =>
          cases hc : ((processEdges repoName since page.edges).2 || !page.hasNextPage) with
          | true =>
              rw [fetchPagesFrom_ok_stop pages repoName since n idx page hp hc,
                  fetchPagesFrom_ok_stop pages2 repoName since n idx page (h0.trans hp) hc]
          | false =>
              rw [fetchPagesFrom_ok_cont pages repoName since n idx page hp hc,
                  fetchPagesFrom_ok_cont pages2 repoName since n idx page (h0.trans hp) hc,
                  hrec]

/-! ## Claim theorem for per-repository pagination -/

/-- C4: the per-repository fetch returns only events strictly newer
than the cutoff; its result depends only on the first `maxPages = 10`
pages; whenever page 0 contains an event at or before the cutoff, or
reports no next page, the result depends on page 0 alone (no further
page is requested); and on the spec scenario — a single old edge with
`hasNextPage = true` — the fetch returns no events and no error. -/
theorem fetchStarsForRepo_spec :
    (∀ (pages : Nat → Except GoError StarsPage) (repoName : GoStr) (since : Int),
      ∀ ev ∈ (fetchStarsForRepo pages repoName since).1, since < ev.starredAt)
    ∧ (∀ (pages pages2 : Nat → Except GoError StarsPage) (repoName : GoStr) (since : Int),
      (∀ i, i < maxPages → pages i = pages2 i) →
        fetchStarsForRepo pages repoName since = fetchStarsForRepo pages2 repoName since)
    ∧ (∀ (pages pages2 : Nat → Except GoError StarsPage) (repoName : GoStr) (since : Int)
        (p : StarsPage),
      pages 0 = .ok p → pages2 0 = .ok p →
      ((∃ e ∈ p.edges, e.starredAt ≤ since) ∨ p.hasNextPage = false) →
        fetchStarsForRepo pages repoName since = fetchStarsForRepo pages2 repoName since)
    ∧ (∀ (pages : Nat → Except GoError StarsPage) (repoName : GoStr) (since : Int)
        (ed : StarEdge),
      pages 0 = .ok { edges := [ed], hasNextPage := true } → ed.starredAt ≤ since →
        fetchStarsForRepo pages repoName since = ([], none)) := by
  refine ⟨?_, ?_, ?_, ?_⟩
  · intro pages repoName since ev hev
    exact fetchPagesFrom_newer pages repoName since maxPages 0 ev hev
  · intro pages pages2 repoName since h
    unfold fetchStarsForRepo
    exact fetchPagesFrom_congr pages pages2 repoName since maxPages 0
      (fun j hj1 hj2 => h j (by simpa using hj2))
  · intro pages pages2 repoName since p hp hp2 hstop
    have hc : ((processEdges repoName since p.edges).2 || !p.hasNextPage) = true := by
      rcases hstop with hold | hnext
      · rw [processEdges_found_old repoName since p.edges hold]
        rfl
      · rw [hnext]
        simp
    unfold fetchStarsForRepo
    rw [show maxPages = 9 + 1 from rfl]
    rw [fetchPagesFrom_ok_stop pages repoName since 9 0 p hp hc,
        fetchPagesFrom_ok_stop pages2 repoName since 9 0 p hp2 hc]
  · intro pages repoName since ed hp hed
    have hpe : (processEdges repoName since [ed]) = ([], true) := by
      simp [processEdges, not_lt.2 hed]
    unfold fetchStarsForRepo
    rw [show maxPages = 9 + 1 from rfl]
    rw [fetchPagesFrom_ok_stop pages repoName since 9 0 _ hp (by rw [hpe]; rfl)]
    rw [hpe]

/-- C4 witness: the pagination theorem applied to a concrete resource
whose first page holds one old edge and promises a next page: the fetch
returns nothing. -/
theorem fetchStarsForRepo_spec_witness :
    fetchStarsForRepo
      (fun _ => Except.ok
        { edges := [{ starredAt := 0, cursor := "c1".toList, login := "u".toList }]
          hasNextPage := true })
      "o/r".toList 5
      = ([], none) :=
  fetchStarsForRepo_spec.2.2.2 _ "o/r".toList 5
    { starredAt := 0, cursor := "c1".toList, login := "u".toList } rfl (by decide)

/-! ## Worker-pool lemmas -/

/-- Membership in the worker-pool accumulator, generalized over the
starting accumulator: an event is collected exactly when some
repository's fetch succeeded and produced it. -/
theorem mem_pool_foldl (cm : ClientModel) (since : Int) (repos : List GoStr)
    (acc : List StarEvent) (ev : StarEvent) :
    (ev ∈ repos.foldl
        (fun acc repo =>
          let r := fetchStarsForRepo (cm.pages repo) repo since
          match r.2 with
          | some _ => acc
          | none => acc ++ r.1)
        acc)
      ↔ ev ∈ acc ∨ ∃ r ∈ repos, (fetchStarsForRepo (cm.pages r) r since).2 = none
          ∧ ev ∈ (fetchStarsForRepo (cm.pages r) r since).1 := by
  induction repos generalizing acc with
  | nil => simp
  | cons repo rest ih =>
      simp only [List.foldl_cons]
      cases herr : (fetchStarsForRepo (cm.pages repo) repo since).2 with
      | some e =>
          simp only [herr]
          rw [ih]
          simp only [List.mem_cons]
          constructor
          · rintro (h | ⟨r, hr, hnone, hmem⟩)
            · exact Or.inl h
            · exact Or.inr ⟨r, Or.inr hr, hnone, hmem⟩
          · rintro (h | ⟨r, rfl | hr, hnone, hmem⟩)
            · exact Or.inl h
            · rw [herr] at hnone
              cases hnone
            · exact Or.inr ⟨r, hr, hnone, hmem⟩
      | none =>
          simp only [herr]
          rw [ih]
          simp only [List.mem_cons, List.mem_append]
          constructor
          · rintro ((h | h) | ⟨r, hr, hnone, hmem⟩)
            · exact Or.inl h
            · exact Or.inr ⟨repo, Or.inl rfl, herr, h⟩
            · exact Or.inr ⟨r, Or.inr hr, hnone, hmem⟩
          · rintro (h | ⟨r, rfl | hr, hnone, hmem⟩)
            · exact Or.inl (Or.inl h)
            · exact Or.inl (Or.inr hmem)
            · exact Or.inr ⟨r, hr, hnone, hmem⟩

/-- Membership in the worker-pool result. -/
theorem mem_pool (cm : ClientModel) (since : Int) (repos : List GoStr) (ev : StarEvent) :
    ev ∈ fetchStarsWithWorkerPool cm repos since
      ↔ ∃ r ∈ repos, (fetchStarsForRepo (cm.pages r) r since).2 = none
          ∧ ev ∈ (fetchStarsForRepo (cm.pages r) r since).1 := by
  rw [fetchStarsWithWorkerPool, mem_pool_foldl]
  simp

/-! ## Claim theorem for the concurrent fetch orchestrator -/

/-- C6: with an empty repository list `FetchRecentStars` returns an
empty result and no error; whenever the repository list is obtained the
overall operation succeeds, a failing per-repository fetch is skipped
(every returned event comes from a repository whose fetch reported no
error) without losing the other repositories' events, and the returned
slice is sorted newest-first by `StarredAt`. -/
theorem fetchRecentStars_spec (cm : ClientModel) (since : Int) :
    (cm.reposResult = .ok [] → FetchRecentStars cm since = .ok [])
    ∧ (∀ repos, cm.reposResult = .ok repos →
        FetchRecentStars cm since
          = .ok (sortStarsDesc (fetchStarsWithWorkerPool cm repos since)))
    ∧ (∀ repos evs, cm.reposResult = .ok repos →
        FetchRecentStars cm since = .ok evs →
        List.Sorted (fun a b => b.starredAt ≤ a.starredAt) evs
        ∧ (∀ ev ∈ evs, ∃ r ∈ repos,
            (fetchStarsForRepo (cm.pages r) r since).2 = none
            ∧ ev ∈ (fetchStarsForRepo (cm.pages r) r since).1)
        ∧ (∀ r ∈ repos, (fetchStarsForRepo (cm.pages r) r since).2 = none →
            ∀ ev ∈ (fetchStarsForRepo (cm.pages r) r since).1, ev ∈ evs)) := by
  have hok : ∀ repos, cm.reposResult = .ok repos →
      FetchRecentStars cm since
        = .ok (sortStarsDesc (fetchStarsWithWorkerPool cm repos since)) := by
    intro repos h
    simp [FetchRecentStars, h]
  refine ⟨?_, hok, ?_⟩
  · intro h
    have := hok [] h
    simpa [fetchStarsWithWorkerPool, sortStarsDesc] using this
  · intro repos evs h hres
    rw [hok repos h] at hres
    injection hres with hres
    subst hres
    refine ⟨sortStarsDesc_sorted _, ?_, ?_⟩
    · intro ev hev
      exact (mem_pool cm since repos ev).1 (((sortStarsDesc_perm _).mem_iff).1 hev)
    · intro r hr hnone ev hev
      exact ((sortStarsDesc_perm _).mem_iff).2
        ((mem_pool cm since repos ev).2 ⟨r, hr, hnone, hev⟩)

/-- C6 witness: the orchestrator theorem applied to a client with an
empty repository list. -/
theorem fetchRecentStars_spec_witness :
    FetchRecentStars
      { reposResult := Except.ok [],
        pages := fun _ _ => Except.ok { edges := [], hasNextPage := false } } 0
      = Except.ok [] :=
  (fetchRecentStars_spec
    { reposResult := Except.ok [],
      pages := fun _ _ => Except.ok { edges := [], hasNextPage := false } } 0).1 rfl

end GhNotify
